import Mathlib

/-!
Verification of the Scheme interpreter's evaluation engine against its
specification.

The definitions below are a shallow embedding of the interpreter's core:
the three-tier object model (unallocated / stack / heap), the slot-based
heap allocator (`alloc.rs`), the diagnostic `ErrorWriter` (`error.rs`),
and the standard-library natives and macro-class special forms
(`std_lib.rs`): the arithmetic and comparison folds, `car`, `cdr`, the
`if` macro and the module import.

The engine's context type (`InterpreterContext`), object enums and the
dereference operation are declared in repository files that are not part
of the staged sources (only their users are); those definitions are
modelled from the specification and are marked `Modelled from the spec:`
in their doc comments.  Rust's `&mut self` discipline is modelled by
explicit state passing: every fallible engine operation returns an
`ExecResult` carrying the mutated context, and a Rust `panic!`,
`todo!()` or `.unwrap()` failure is modelled by the distinguished
outcome `ExecResult.panicked` (the process aborts; no state survives).
-/

namespace Scheme

/-- An identifier name.  (An alias so that signatures declared inside the
object-model namespaces, whose constructors shadow the name `String`,
can still name the string type.) -/
abbrev Ident := String

/-- Modelled from the spec: a numeric literal.  The source distinguishes
integer and floating-point numerics (`Numeric::Int`, `Numeric::Float` in
the unstaged `scheme_core` literal module); the float payload is modelled
as a rational since no claim below depends on IEEE rounding. -/
inductive Numeric where
  | Int (i : Int)
  | Float (q : Rat)
  deriving DecidableEq

/-- Modelled from the spec: a scalar literal (`Literal` in the unstaged
`scheme_core` literal module).  The staged sources use the numeric and
boolean variants. -/
inductive Literal where
  | Numeric (n : Numeric)
  | Boolean (b : Bool)
  deriving DecidableEq

/-- Modelled from the spec: a source span, used only for diagnostics.  The
start and end positions are abstracted to an interval of offsets; only
the file id is inspected by the engine (by `import`). -/
structure Span where
  file_id : Nat
  lo : Nat
  hi : Nat
  deriving DecidableEq

/-- Modelled from the spec: the covering span of two spans (`max_span` in
the unstaged `scheme_core` span module). -/
def Span.max_span (a b : Span) : Span :=
  ⟨a.file_id, min a.lo b.lo, max a.hi b.hi⟩

/-- Modelled from the spec: the parser's syntax tree (node kinds literal,
identifier, operation(head, args), list, empty-list, string-literal, each
carrying a span). -/
inductive AST where
  | Literal (l : Scheme.Literal) (s : Span)
  | Identifier (name : String) (s : Span)
  | StringLiteral (v : String) (s : Span)
  | Operation (head : AST) (args : List AST) (s : Span)
  | ListNode (items : List AST) (s : Span)
  | EmptyList (s : Span)

/-- The span carried by a syntax node. -/
def AST.span : AST → Span
  | .Literal _ s => s
  | .Identifier _ s => s
  | .StringLiteral _ s => s
  | .Operation _ _ s => s
  | .ListNode _ s => s
  | .EmptyList s => s

/-- Modelled from the spec: the covering span of a whole argument list
(`TotalSpan` on `Vec<&AST>`): `none` exactly on the empty list. -/
def totalSpanOf (l : List AST) : Option Span :=
  match l.map AST.span with
  | [] => none
  | s :: ss => some (ss.foldl Span.max_span s)

/-- Modelled from the spec: `Func` is polymorphic over natives, macro-class
special forms and user-defined closures.  The native and macro variants
carry Rust function pointers in the source; a function pointer is a pure
dispatch identity, modelled here by the carried name. -/
inductive Func where
  | Native (name : String)
  | Macro (name : String)
  | Defined (name : Option String) (params : List String) (body : AST)

/-- Modelled from the spec: `ObjectPointer` identifies a location, never a
value directly. -/
inductive ObjectPointer where
  | Null
  | Stack (frame : Nat) (index : Nat)
  | Heap (slot : Nat)
  deriving DecidableEq

/-- Modelled from the spec: `StackObject` is what lives on the data stack
or in a frame slot: an inline scalar or an indirection. -/
inductive StackObject where
  | Value (l : Scheme.Literal)
  | Ref (p : ObjectPointer)
  deriving DecidableEq

/-- Modelled from the spec: `HeapObject` is what a heap slot holds; list
cells store pointers on both sides. -/
inductive HeapObject where
  | Value (l : Scheme.Literal)
  | Func (f : Scheme.Func)
  | String (s : String)
  | List (head : ObjectPointer) (tail : ObjectPointer)

/-- Modelled from the spec: `UnallocatedObject` is a value not yet given a
location; its list cells own their sub-values. -/
inductive UnallocatedObject where
  | Value (l : Scheme.Literal)
  | Func (f : Scheme.Func)
  | String (s : String)
  | List (head : UnallocatedObject) (tail : UnallocatedObject)
  | Null

/-- The interpreter's flat error taxonomy (spec §7).  `EmptyDataStack` is
modelled from the spec (§4.3: popping an empty data stack is a
recoverable error); the remaining kinds are the source's
`InterpreterErrorKind` variants. -/
inductive InterpreterErrorKind where
  | CannotAllocateNull
  | EmptyImport
  | InvalidInImport
  | ImportNotFound (path : String)
  | ErrorInParsingImport
  | ExpectedNParams (expected : Nat) (received : Nat)
  | InvalidFuncParamNames
  | CannotCall (description : String)
  | IsNotParamName (description : String)
  | NullDeref
  | ExpectedList
  | FailedOperation
  | EmptyDataStack
  deriving DecidableEq

/-- A located interpreter error: a kind with an optional span
(`InterpreterError::new` leaves the span empty, `spanned` fills it). -/
structure InterpreterError where
  kind : InterpreterErrorKind
  span : Option Span
  deriving DecidableEq

/-- Modelled from the spec: one call frame's positional locals (parameter
order).  The frame also maps names to the same storage; only the
positional view is used by the staged sources (`car` over a `Stack`
pointer), so the name map is omitted here. -/
structure StackFrame where
  locals : List StackObject

/-- Positional local lookup (`get_local_by_index`). -/
def StackFrame.get_local_by_index (f : StackFrame) (i : Nat) : Option StackObject :=
  f.locals[i]?

/-- A module file path, as the segment list the loader joins; the
diagnostic registry keys files by such paths. -/
abbrev ModulePath := List String

/-- The diagnostic file registry (`ErrorWriter` in `error.rs`): its three
`BTreeMap`s are modelled as association lists with keyed lookup. -/
structure ErrorWriter where
  loaded_paths : List (ModulePath × Nat)
  id_to_path : List (Nat × ModulePath)
  files : List (Nat × List String)

/-- Keyed insert into an association list, replacing the value when the
key is present (the `BTreeMap::insert` used by `add_file`). -/
def insertAssoc {κ β : Type} [BEq κ] (l : List (κ × β)) (k : κ) (v : β) : List (κ × β) :=
  if l.any (fun kv => kv.1 == k) then
    l.map (fun kv => if kv.1 == k then (k, v) else kv)
  else l ++ [(k, v)]

/-- Whether a canonical path was already loaded in this run
(`ErrorWriter::already_loaded`). -/
def ErrorWriter.already_loaded (ew : ErrorWriter) (path : ModulePath) : Bool :=
  (ew.loaded_paths.lookup path).isSome

/-- Register a file with the diagnostic registry (`ErrorWriter::add_file`):
the fresh id is the current number of registered files, and the path and
line-split contents are recorded under it. -/
def ErrorWriter.add_file (ew : ErrorWriter) (path : ModulePath) (contents : String) :
    Nat × ErrorWriter :=
  let id := ew.files.length
  (id,
   { loaded_paths := insertAssoc ew.loaded_paths path id
     id_to_path := insertAssoc ew.id_to_path id path
     files := insertAssoc ew.files id (contents.splitOn "\n") })

/-- Modelled from the spec: the one interpreter context owning the heap
table, the frame stack, the data stack, the global name table and the
diagnostic registry. -/
structure InterpreterContext where
  heap : List (Option HeapObject)
  data_stack : List StackObject
  frame_stack : List StackFrame
  ident_mapping : List (String × ObjectPointer)
  error_writer : ErrorWriter

/-- The outcome of an engine operation under Rust's `&mut self`
discipline: success and typed failure carry the mutated context
(`InterpreterResult<T>` with the borrowed interpreter made explicit);
`panicked` models a process abort (`panic!`, `todo!()`, a failed
`.unwrap()`), after which no state survives. -/
inductive ExecResult (α : Type) where
  | ok (ctx : InterpreterContext) (a : α)
  | err (ctx : InterpreterContext) (e : InterpreterError)
  | panicked

/-- Modelled from the spec: a dereferenced view of an object (`ObjectRef`);
it presents the same shapes as a heap object (an inline scalar
dereferences to the value view). -/
abbrev ObjectRef := HeapObject

/-- Pop the transient operand stack (`pop_data`); modelled from the spec:
popping an empty data stack is a recoverable error, not a crash. -/
def InterpreterContext.pop_data (ctx : InterpreterContext) : ExecResult StackObject :=
  match ctx.data_stack with
  | [] => .err ctx ⟨.EmptyDataStack, none⟩
  | x :: xs => .ok { ctx with data_stack := xs } x

/-- Push one result onto the operand stack (`push_data`). -/
def InterpreterContext.push_data (ctx : InterpreterContext) (so : StackObject) :
    InterpreterContext :=
  { ctx with data_stack := so :: ctx.data_stack }

/-- Modelled from the spec: dereference with a chase bound.  An inline
scalar is its own value view; a `Null` pointer never dereferences
(`NullDeref`); a `Stack` pointer fetches the referenced frame's
positional local and dereferences that; a `Heap` pointer yields the
occupied slot's object.  The bound only limits chains of stack
references and is immaterial to every theorem below, which constrain
dereference results directly. -/
def derefWithFuel (ctx : InterpreterContext) : Nat → StackObject → Except InterpreterError ObjectRef
  | _, .Value l => .ok (.Value l)
  | 0, .Ref _ => .error ⟨.NullDeref, none⟩
  | fuel + 1, .Ref p =>
    match p with
    | .Null => .error ⟨.NullDeref, none⟩
    | .Stack i j =>
      match ctx.frame_stack[i]? >>= (fun f => f.get_local_by_index j) with
      | some so => derefWithFuel ctx fuel so
      | none => .error ⟨.NullDeref, none⟩
    | .Heap h =>
      match ctx.heap[h]? >>= id with
      | some obj => .ok obj
      | none => .error ⟨.NullDeref, none⟩

/-- Modelled from the spec: dereference a stack object against the
context (`InterpreterDeref`). -/
def StackObject.deref (so : StackObject) (ctx : InterpreterContext) :
    Except InterpreterError ObjectRef :=
  derefWithFuel ctx (ctx.frame_stack.length + 1) so

/-- Modelled from the spec: dereference a bare pointer
(`deref_pointer`, used by the REPL to print results). -/
def InterpreterContext.deref_pointer (ctx : InterpreterContext) (p : ObjectPointer) :
    Except InterpreterError ObjectRef :=
  (StackObject.Ref p).deref ctx

/-- The slot scan of the heap allocator
(`iter().enumerate().find_map(|(i, o)| o.is_none().then_some(i))`):
the index of the first empty slot, in index order. -/
def firstEmptyIdx : List (Option HeapObject) → Option Nat
  | [] => none
  | none :: _ => some 0
  | some _ :: rest => (firstEmptyIdx rest).map (· + 1)

/-- Heap allocation of a `HeapObject` (`alloc.rs`): scan the slot table in
index order for the first empty slot, defaulting to the table length;
when the chosen index is past the end, extend the table with
`(len ..= id + 1)` fresh empty slots — that inclusive range holds
`id + 2 - len` slots — then store the object at the chosen index.  The
source returns `Ok` unconditionally, so no error case is modelled. -/
def HeapObject.heap_alloc (self : HeapObject) (ctx : InterpreterContext) :
    ObjectPointer × InterpreterContext :=
  let id := (firstEmptyIdx ctx.heap).getD ctx.heap.length
  let extended :=
    if ctx.heap.length ≤ id then
      ctx.heap ++ List.replicate (id + 2 - ctx.heap.length) none
    else ctx.heap
  (ObjectPointer.Heap id, { ctx with heap := extended.set id (some self) })

/-- Named heap allocation (`heap_alloc_named`): allocate, then register
the returned pointer in the global name table under the identifier. -/
def HeapObject.heap_alloc_named (self : HeapObject) (ident : Ident)
    (ctx : InterpreterContext) : ObjectPointer × InterpreterContext :=
  let (p, ctx₁) := self.heap_alloc ctx
  (p, { ctx₁ with ident_mapping := insertAssoc ctx₁.ident_mapping ident p })

/-- Heap allocation of a `StackObject` (`alloc.rs`): an inline scalar is
boxed as a `HeapObject::Value` first; a reference is an identity
operation (no double-boxing). -/
def StackObject.heap_alloc (self : StackObject) (ctx : InterpreterContext) :
    ExecResult ObjectPointer :=
  match self with
  | .Value v =>
    let (p, ctx₁) := (HeapObject.Value v).heap_alloc ctx
    .ok ctx₁ p
  | .Ref p => .ok ctx p

/-- Heap allocation of an `UnallocatedObject` (`alloc.rs`): scalars, funcs
and strings convert directly; a list cell recursively heap-allocates its
head and tail first (so stored list cells hold pointers on both sides);
allocating `Null` fails with `CannotAllocateNull`. -/
def UnallocatedObject.heap_alloc (self : UnallocatedObject) (ctx : InterpreterContext) :
    ExecResult ObjectPointer :=
  match self with
  | .Value v =>
    let (p, ctx₁) := (HeapObject.Value v).heap_alloc ctx
    .ok ctx₁ p
  | .Func f =>
    let (p, ctx₁) := (HeapObject.Func f).heap_alloc ctx
    .ok ctx₁ p
  | .String s =>
    let (p, ctx₁) := (HeapObject.String s).heap_alloc ctx
    .ok ctx₁ p
  | .List head tail =>
    match head.heap_alloc ctx with
    | .ok ctx₁ hp =>
      match tail.heap_alloc ctx₁ with
      | .ok ctx₂ tp =>
        let (p, ctx₃) := (HeapObject.List hp tp).heap_alloc ctx₂
        .ok ctx₃ p
      | .err c e => .err c e
      | .panicked => .panicked
    | .err c e => .err c e
    | .panicked => .panicked
  | .Null => .err ctx ⟨.CannotAllocateNull, none⟩

/-- Stack allocation of an `ObjectPointer` (`alloc.rs`): fails on `Null`,
wraps any other pointer as a reference. -/
def ObjectPointer.stack_alloc (self : ObjectPointer) (ctx : InterpreterContext) :
    ExecResult StackObject :=
  match self with
  | .Null => .err ctx ⟨.CannotAllocateNull, none⟩
  | p => .ok ctx (.Ref p)

/-- Stack allocation of an `UnallocatedObject` (`alloc.rs`): a scalar is
stored inline with no heap traffic; any other variant is heap-allocated
first and wrapped as a reference. -/
def UnallocatedObject.stack_alloc (self : UnallocatedObject) (ctx : InterpreterContext) :
    ExecResult StackObject :=
  match self with
  | .Value v => .ok ctx (.Value v)
  | o =>
    match o.heap_alloc ctx with
    | .ok ctx₁ p => .ok ctx₁ (.Ref p)
    | .err c e => .err c e
    | .panicked => .panicked

/-- Stack allocation of a `HeapObject` (`alloc.rs`): heap-allocate, then
wrap the pointer as a reference. -/
def HeapObject.stack_alloc (self : HeapObject) (ctx : InterpreterContext) :
    ExecResult StackObject :=
  let (p, ctx₁) := self.heap_alloc ctx
  .ok ctx₁ (.Ref p)

/-! ## Standard-library natives (`std_lib.rs`) -/

/-- The operand-popping loop shared by every native
(`for _ in 0..n { objs.push(interpreter.pop_data()?) }`): the popped
objects in pop order, topmost first. -/
def popN (ctx : InterpreterContext) : Nat → ExecResult (List StackObject)
  | 0 => .ok ctx []
  | n + 1 =>
    match ctx.pop_data with
    | .ok ctx₁ x =>
      match popN ctx₁ n with
      | .ok ctx₂ xs => .ok ctx₂ (x :: xs)
      | .err c e => .err c e
      | .panicked => .panicked
    | .err c e => .err c e
    | .panicked => .panicked

/-- Modelled from the spec: unbox a dereferenced view into an unallocated
object (`clone_to_unallocated`, first step of the arithmetic fold: "the
accumulator starts as the first operand's own (unboxed) value").  The
list case is unspecified by the spec's words and unexercised by every
theorem below (the fold would reject a non-numeric accumulator at the
next step); it is modelled as `Null`. -/
def ObjectRef.clone_to_unallocated : ObjectRef → UnallocatedObject
  | .Value v => .Value v
  | .Func f => .Func f
  | .String s => .String s
  | .List _ _ => .Null

/-- One step of the arithmetic fold inside `bin_op!`: the operand is
dereferenced with `.unwrap()` (a dereference error aborts the process);
an empty accumulator takes the operand's unboxed value; a numeric
accumulator combines with a numeric operand through the literal
operator; every other pairing hits the fold's `panic!()`.  `none` is the
abort. -/
def binStep (op : Numeric → Numeric → Numeric) (ctx : InterpreterContext)
    (acc : Option UnallocatedObject) (obj : StackObject) :
    Option (Option UnallocatedObject) :=
  match obj.deref ctx with
  | .error _ => none
  | .ok v =>
    match acc with
    | none => some (some v.clone_to_unallocated)
    | some (UnallocatedObject.Value (Literal.Numeric l)) =>
      match v with
      | .Value (Literal.Numeric r) =>
        some (some (UnallocatedObject.Value (Literal.Numeric (op l r))))
      | _ => none
    | some _ => none

/-- The arithmetic fold over the operands in restored evaluation order. -/
def binFold (op : Numeric → Numeric → Numeric) (ctx : InterpreterContext) :
    List StackObject → Option UnallocatedObject → Option (Option UnallocatedObject)
  | [], acc => some acc
  | o :: os, acc =>
    match binStep op ctx acc o with
    | some acc₁ => binFold op ctx os acc₁
    | none => none

/-- The `bin_op!` macro's body after the popping loop: restore evaluation
order (`objs.reverse()`), fold pairwise through the literal numeric
operator starting from an empty accumulator; an empty fold result is the
typed error `FailedOperation`; otherwise the folded value is
stack-allocated and pushed.  (`objs` holds the popped operands topmost
first, as the loop left them.) -/
def bin_op_core (op : Numeric → Numeric → Numeric) (ctx₁ : InterpreterContext)
    (objs : List StackObject) : ExecResult Unit :=
  match binFold op ctx₁ objs.reverse none with
  | none => .panicked
  | some none => .err ctx₁ ⟨.FailedOperation, none⟩
  | some (some out) =>
    match out.stack_alloc ctx₁ with
    | .ok ctx₂ so => .ok (ctx₂.push_data so) ()
    | .err c e => .err c e
    | .panicked => .panicked

/-- The `bin_op!` macro's body (each arithmetic native): pop `n` operands,
then run the arithmetic fold over them. -/
def bin_op (op : Numeric → Numeric → Numeric) (ctx : InterpreterContext) (n : Nat) :
    ExecResult Unit :=
  match popN ctx n with
  | .ok ctx₁ objs => bin_op_core op ctx₁ objs
  | .err c e => .err c e
  | .panicked => .panicked

/-- Modelled from the spec: a numeric as a rational (for the mixed-kind
promotion of native literal arithmetic). -/
def Numeric.toRat : Numeric → Rat
  | .Int i => (i : Rat)
  | .Float q => q

/-- Modelled from the spec: native literal addition. -/
def Numeric.add : Numeric → Numeric → Numeric
  | .Int a, .Int b => .Int (a + b)
  | a, b => .Float (a.toRat + b.toRat)

/-- Modelled from the spec: native literal subtraction. -/
def Numeric.sub : Numeric → Numeric → Numeric
  | .Int a, .Int b => .Int (a - b)
  | a, b => .Float (a.toRat - b.toRat)

/-- Modelled from the spec: native literal multiplication. -/
def Numeric.mul : Numeric → Numeric → Numeric
  | .Int a, .Int b => .Int (a * b)
  | a, b => .Float (a.toRat * b.toRat)

/-- Modelled from the spec: native literal division (integer division
truncates toward zero, as Rust's `/` on integers does). -/
def Numeric.div : Numeric → Numeric → Numeric
  | .Int a, .Int b => .Int (Int.tdiv a b)
  | a, b => .Float (a.toRat / b.toRat)

/-- The native `add` (`bin_op!(add, l, r, l + r)`). -/
def add (ctx : InterpreterContext) (n : Nat) : ExecResult Unit :=
  bin_op Numeric.add ctx n

/-- The native `sub` (`bin_op!(sub, l, r, l - r)`). -/
def sub (ctx : InterpreterContext) (n : Nat) : ExecResult Unit :=
  bin_op Numeric.sub ctx n

/-- The native `mul` (`bin_op!(mul, l, r, l * r)`). -/
def mul (ctx : InterpreterContext) (n : Nat) : ExecResult Unit :=
  bin_op Numeric.mul ctx n

/-- The native `div` (`bin_op!(div, l, r, l / r)`). -/
def div (ctx : InterpreterContext) (n : Nat) : ExecResult Unit :=
  bin_op Numeric.div ctx n

/-- The adjacent pairs of a list (`objs.windows(2)`). -/
def adjacentPairs {α : Type} : List α → List (α × α)
  | a :: b :: rest => (a, b) :: adjacentPairs (b :: rest)
  | _ => []

/-- The comparison fold inside `cmp_op!`
(`fold(Ok(true), |out, objs| ...)`): a carried error keeps folding
unchanged; a `false` accumulator short-circuits the `&&` so the pair is
not dereferenced; a `true` accumulator dereferences both sides (`?`
propagates a dereference error) and applies the relation. -/
def cmpFold (rel : ObjectRef → ObjectRef → Bool) (ctx : InterpreterContext) :
    List (StackObject × StackObject) → Except InterpreterError Bool →
    Except InterpreterError Bool
  | [], out => out
  | (a, b) :: rest, out =>
    cmpFold rel ctx rest
      (match out with
       | .error e => .error e
       | .ok false => .ok false
       | .ok true =>
         match a.deref ctx with
         | .error e => .error e
         | .ok l =>
           match b.deref ctx with
           | .error e => .error e
           | .ok r => .ok (rel l r))

/-- The `cmp_op!` macro's body after the popping loop: restore evaluation
order, require the relation over every adjacent pair, and push the
boolean result inline (`out?` surfaces a carried dereference error
first). -/
def cmp_op_core (rel : ObjectRef → ObjectRef → Bool) (ctx₁ : InterpreterContext)
    (objs : List StackObject) : ExecResult Unit :=
  match cmpFold rel ctx₁ (adjacentPairs objs.reverse) (.ok true) with
  | .error e => .err ctx₁ e
  | .ok b => .ok (ctx₁.push_data (StackObject.Value (Literal.Boolean b))) ()

/-- The `cmp_op!` macro's body (each comparison native): pop `n`
operands, then run the chained comparison over them. -/
def cmp_op (rel : ObjectRef → ObjectRef → Bool) (ctx : InterpreterContext) (n : Nat) :
    ExecResult Unit :=
  match popN ctx n with
  | .ok ctx₁ objs => cmp_op_core rel ctx₁ objs
  | .err c e => .err c e
  | .panicked => .panicked

/-- Modelled from the spec: structural equality of dereferenced views on
scalar literals (`l == r`); comparing non-scalar views is not specified
by the spec's words and is modelled as `false`. -/
def ObjectRef.eqv (a b : ObjectRef) : Bool :=
  match a, b with
  | .Value x, .Value y => x == y
  | _, _ => false

/-- Modelled from the spec: the strict order of dereferenced views on
numeric literals (`l < r`), with booleans ordered `false < true`;
other pairings are modelled as `false`. -/
def ObjectRef.ltv (a b : ObjectRef) : Bool :=
  match a, b with
  | .Value (.Numeric x), .Value (.Numeric y) => x.toRat < y.toRat
  | .Value (.Boolean x), .Value (.Boolean y) => !x && y
  | _, _ => false

/-- Modelled from the spec: the non-strict order of dereferenced views
(`l <= r`). -/
def ObjectRef.lev (a b : ObjectRef) : Bool :=
  a.eqv b || a.ltv b

/-- The native `eq` (`cmp_op!(eq, l, r, l == r)`). -/
def eq (ctx : InterpreterContext) (n : Nat) : ExecResult Unit :=
  cmp_op ObjectRef.eqv ctx n

/-- The native `lt` (`cmp_op!(lt, l, r, l < r)`). -/
def lt (ctx : InterpreterContext) (n : Nat) : ExecResult Unit :=
  cmp_op ObjectRef.ltv ctx n

/-- The native `lteq` (`cmp_op!(lteq, l, r, l <= r)`). -/
def lteq (ctx : InterpreterContext) (n : Nat) : ExecResult Unit :=
  cmp_op ObjectRef.lev ctx n

/-- The native `gt` (`cmp_op!(gt, l, r, l > r)`). -/
def gt (ctx : InterpreterContext) (n : Nat) : ExecResult Unit :=
  cmp_op (fun l r => ObjectRef.ltv r l) ctx n

/-- The native `gteq` (`cmp_op!(gteq, l, r, l >= r)`). -/
def gteq (ctx : InterpreterContext) (n : Nat) : ExecResult Unit :=
  cmp_op (fun l r => ObjectRef.lev r l) ctx n

/-- The native `car` (`std_lib.rs`): arity exactly 1 or
`ExpectedNParams{1, n}`; an inline scalar operand is pushed back
unchanged; a `Null` pointer fails with `NullDeref`; a `Stack` pointer
fetches the referenced frame's positional local; a `Heap` pointer to a
list cell stack-allocates the cell's head; a `Heap` pointer to any other
object hits the source's `todo!()` (a process abort). -/
def car (ctx : InterpreterContext) (n : Nat) : ExecResult Unit :=
  if n ≠ 1 then .err ctx ⟨.ExpectedNParams 1 n, none⟩
  else
    match ctx.pop_data with
    | .ok ctx₁ list =>
      match list with
      | .Value _ => .ok (ctx₁.push_data list) ()
      | .Ref p =>
        match p with
        | .Null => .err ctx₁ ⟨.NullDeref, none⟩
        | .Stack i q =>
          match ctx₁.frame_stack[i]? >>= (fun f => f.get_local_by_index q) with
          | some so => .ok (ctx₁.push_data so) ()
          | none => .err ctx₁ ⟨.NullDeref, none⟩
        | .Heap q =>
          match ctx₁.heap[q]? >>= id with
          | some (HeapObject.List h _) =>
            match h.stack_alloc ctx₁ with
            | .ok ctx₂ so => .ok (ctx₂.push_data so) ()
            | .err c e => .err c e
            | .panicked => .panicked
          | some _ => .panicked
          | none => .err ctx₁ ⟨.NullDeref, none⟩
    | .err c e => .err c e
    | .panicked => .panicked

/-- The native `cdr` (`std_lib.rs`): arity exactly 1 or
`ExpectedNParams{1, n}`; an inline scalar operand fails with
`ExpectedList`; a `Null` pointer fails with `NullDeref`; a `Stack`
pointer hits the source's `todo!()` (a process abort); a `Heap` pointer
to a list cell stack-allocates the cell's tail; a `Heap` pointer to any
other object hits the source's `todo!()`. -/
def cdr (ctx : InterpreterContext) (n : Nat) : ExecResult Unit :=
  if n ≠ 1 then .err ctx ⟨.ExpectedNParams 1 n, none⟩
  else
    match ctx.pop_data with
    | .ok ctx₁ list =>
      match list with
      | .Value _ => .err ctx₁ ⟨.ExpectedList, none⟩
      | .Ref p =>
        match p with
        | .Null => .err ctx₁ ⟨.NullDeref, none⟩
        | .Stack _ _ => .panicked
        | .Heap q =>
          match ctx₁.heap[q]? >>= id with
          | some (HeapObject.List _ t) =>
            match t.stack_alloc ctx₁ with
            | .ok ctx₂ so => .ok (ctx₂.push_data so) ()
            | .err c e => .err c e
            | .panicked => .panicked
          | some _ => .panicked
          | none => .err ctx₁ ⟨.NullDeref, none⟩
    | .err c e => .err c e
    | .panicked => .panicked

/-- The span attached to an arity error of the `if` macro: the covering
span of the extra arguments past the third when there are any, otherwise
the last argument's span (for the empty argument list the source
unwraps `last()` on nothing — handled by the caller as an abort). -/
def ifExcessSpan (ast : List AST) : Option Span :=
  match (ast.drop 3).map AST.span with
  | s :: ss => some (ss.foldl Span.max_span s)
  | [] => (ast.getLast?).map AST.span

/-- The `if` special form (`if_macro` in `std_lib.rs`), parametric in the
dispatcher's `interpret` (declared outside the staged sources): with
exactly 3 argument sub-trees it interprets the condition, pops and
dereferences its result, and hands back the else branch exactly when the
condition dereferences to the literal boolean `false`, the then branch
otherwise; with any other count it builds `ExpectedNParams{3, n}` — but
for zero sub-trees the error-span computation unwraps `ast.last()` on an
empty list, an abort. -/
def if_macro (interp : InterpreterContext → AST → ExecResult Unit)
    (ctx : InterpreterContext) (ast : List AST) : ExecResult AST :=
  match ast with
  | [cond, thenBranch, elseBranch] =>
    match interp ctx cond with
    | .ok ctx₁ _ =>
      match ctx₁.pop_data with
      | .ok ctx₂ condObj =>
        match condObj.deref ctx₂ with
        | .ok (HeapObject.Value (Literal.Boolean false)) => .ok ctx₂ elseBranch
        | .ok _ => .ok ctx₂ thenBranch
        | .error e => .err ctx₂ e
      | .err c e => .err c e
      | .panicked => .panicked
    | .err c e => .err c e
    | .panicked => .panicked
  | [] => .panicked
  | other => .err ctx ⟨.ExpectedNParams 3 other.length, ifExcessSpan other⟩

/-- The dotted import path's segments: every argument sub-tree must be a
plain identifier, else `InvalidInImport` spanned at the offender. -/
def segmentNames : List AST → Except InterpreterError (List String)
  | [] => .ok []
  | AST.Identifier name _ :: rest => (segmentNames rest).map (fun ns => name :: ns)
  | e :: _ => .error ⟨.InvalidInImport, some e.span⟩

/-- Modelled from the spec: strip a path component's extension (the part
after its last dot, when it has one). -/
def stripExtension (s : String) : String :=
  let rev := s.data.reverse
  if rev.contains '.' then { data := ((rev.dropWhile (fun c => c != '.')).drop 1).reverse }
  else s

/-- Modelled from the spec: `PathBuf::set_extension` on the path's final
component; a componentless path is unchanged. -/
def ModulePath.setExtension (p : ModulePath) (ext : String) : ModulePath :=
  match p.getLast? with
  | none => p
  | some last => p.dropLast ++ [stripExtension last ++ "." ++ ext]

/-- A path rendered for the `ImportNotFound` message (`to_str`). -/
def ModulePath.render (p : ModulePath) : String :=
  String.intercalate "/" p

/-- The resolved module file path of an import: the importing file's
directory (its registered path with the final component popped), or the
process working directory when the file id is unregistered; the
segments joined under it; and the fixed `scm` extension appended. -/
def resolvedImportPath (cwd : ModulePath) (ew : ErrorWriter) (fileId : Nat)
    (segs : List String) : ModulePath :=
  let base :=
    match ew.id_to_path.lookup fileId with
    | some p => p.dropLast
    | none => cwd
  ModulePath.setExtension (segs.foldl (fun l r => l ++ [r]) base) "scm"

/-- Interpret every top-level node of a loaded module in order
(`for node in ast { interpreter.interpret(&node)? }`). -/
def interpretAll (interp : InterpreterContext → AST → ExecResult Unit)
    (ctx : InterpreterContext) : List AST → ExecResult Unit
  | [] => .ok ctx ()
  | node :: rest =>
    match interp ctx node with
    | .ok ctx₁ _ => interpretAll interp ctx₁ rest
    | .err c e => .err c e
    | .panicked => .panicked

/-- The module loader (`import` in `std_lib.rs`), parametric in the file
system read (`File::open`/`read_to_string`), the front end
(`LexerParser::from_string`), the dispatcher's `interpret` and the
process working directory — all collaborators declared outside the
staged sources.  An empty path fails with `EmptyImport`; a non-identifier
segment with `InvalidInImport`; a resolved path that was already loaded
returns success at once, before the file read, the registry registration
and the interpretation of any form; otherwise the file is read
(`ImportNotFound` on failure), registered, parsed
(`ErrorInParsingImport` on failure) and its forms eagerly interpreted. -/
def importModule (fsRead : ModulePath → Option String)
    (lexparse : Nat → String → Option (List AST))
    (interp : InterpreterContext → AST → ExecResult Unit)
    (cwd : ModulePath) (ctx : InterpreterContext) (ast : List AST) : ExecResult Unit :=
  match ast with
  | [] => .err ctx ⟨.EmptyImport, none⟩
  | first :: _ =>
    match totalSpanOf ast with
    | none => .panicked
    | some totalSpan =>
      match segmentNames ast with
      | .error e => .err ctx e
      | .ok segs =>
        let fp := resolvedImportPath cwd ctx.error_writer first.span.file_id segs
        if ctx.error_writer.already_loaded fp then .ok ctx ()
        else
          match fsRead fp with
          | none => .err ctx ⟨.ImportNotFound fp.render, some totalSpan⟩
          | some contents =>
            let (id, ew₁) := ctx.error_writer.add_file fp contents
            let ctx₁ := { ctx with error_writer := ew₁ }
            match lexparse id contents with
            | none => .err ctx₁ ⟨.ErrorInParsingImport, some totalSpan⟩
            | some nodes => interpretAll interp ctx₁ nodes

/-- The specification's chained-comparison semantics, stated from the
spec's words for comparison with the implementation: the relation holds
for every adjacent pair of the sequence; zero or one element is
vacuously true. -/
def chainHolds (rel : ObjectRef → ObjectRef → Bool) : List ObjectRef → Bool
  | a :: b :: rest => rel a b && chainHolds rel (b :: rest)
  | _ => true

/-! ## Helper lemmas -/

theorem firstEmptyIdx_eq_some_iff {l : List (Option HeapObject)} {j : Nat} :
    firstEmptyIdx l = some j ↔
      l[j]? = some none ∧ ∀ k, k < j → l[k]? ≠ some none := by
  induction l generalizing j with
  | nil => simp [firstEmptyIdx]
  | cons hd tl ih =>
    cases hd with
    | none =>
      cases j with
      | zero => simp [firstEmptyIdx]
      | succ j' =>
        simp only [firstEmptyIdx, List.getElem?_cons_succ]
        constructor
        · intro h; exact absurd h (by simp)
        · rintro ⟨-, hall⟩
          have h0 := hall 0 (Nat.succ_pos _)
          simp at h0
    | some o =>
      cases j with
      | zero => simp [firstEmptyIdx]
      | succ j' =>
        simp only [firstEmptyIdx, Option.map_eq_some', List.getElem?_cons_succ]
        constructor
        · rintro ⟨j'', hj'', heq⟩
          obtain rfl : j'' = j' := by omega
          have := ih.mp (by simpa using hj'')
          refine ⟨by simpa using this.1, ?_⟩
          intro k hk
          cases k with
          | zero => simp
          | succ k' =>
            simp only [List.getElem?_cons_succ]
            exact this.2 k' (Nat.lt_of_succ_lt_succ hk)
        · rintro ⟨hj, hall⟩
          refine ⟨j', ih.mpr ⟨hj, ?_⟩, rfl⟩
          intro k hk
          have := hall (k + 1) (Nat.succ_lt_succ hk)
          simpa using this

theorem firstEmptyIdx_eq_none_iff {l : List (Option HeapObject)} :
    firstEmptyIdx l = none ↔ ∀ s ∈ l, s.isSome := by
  induction l with
  | nil => simp [firstEmptyIdx]
  | cons hd tl ih =>
    cases hd with
    | none => simp [firstEmptyIdx]
    | some o => simp [firstEmptyIdx, ih]

theorem firstEmptyIdx_lt_length {l : List (Option HeapObject)} {j : Nat}
    (h : firstEmptyIdx l = some j) : j < l.length := by
  have := (firstEmptyIdx_eq_some_iff.mp h).1
  by_contra hlen
  rw [List.getElem?_eq_none (Nat.le_of_not_lt hlen)] at this
  exact Option.noConfusion this

theorem heap_alloc_of_empty_slot {ctx : InterpreterContext} {j : Nat} (obj : HeapObject)
    (h : firstEmptyIdx ctx.heap = some j) :
    obj.heap_alloc ctx =
      (ObjectPointer.Heap j, { ctx with heap := ctx.heap.set j (some obj) }) := by
  have hj : j < ctx.heap.length := firstEmptyIdx_lt_length h
  unfold HeapObject.heap_alloc
  rw [h]
  simp only [Option.getD_some]
  rw [if_neg (Nat.not_le_of_lt hj)]

theorem heap_alloc_of_full {ctx : InterpreterContext} (obj : HeapObject)
    (h : firstEmptyIdx ctx.heap = none) :
    obj.heap_alloc ctx =
      (ObjectPointer.Heap ctx.heap.length,
       { ctx with heap := ctx.heap ++ [some obj, none] }) := by
  unfold HeapObject.heap_alloc
  rw [h]
  simp only [Option.getD_none, le_refl, if_pos, Nat.add_sub_cancel_left]
  rw [List.set_append, if_neg (lt_irrefl _)]
  norm_num [List.replicate]

/-! ## The claims -/

/-- C2, counterexample: on a heap with no empty slot (here the empty
table) the allocator does not extend the table by exactly one slot — it
appends two slots (the stored one and a spare empty one), so the new
length is 2, not the old length plus 1. -/
theorem c2_counterexample :
    ((HeapObject.String "x").heap_alloc ⟨[], [], [], [], ⟨[], [], []⟩⟩).2.heap.length = 2 ∧
    (2 : Nat) ≠ (⟨[], [], [], [], ⟨[], [], []⟩⟩ : InterpreterContext).heap.length + 1 := by
  exact ⟨rfl, by decide⟩

/-- C2 (amended): for every heap allocation of a `HeapObject`, the object
is stored in the lowest-indexed empty slot if one exists (the table
otherwise untouched); if no slot is empty, the table is extended by
exactly two slots — the object stored at index equal to the old length
and the extra slot left empty; and dereferencing the returned `Heap`
pointer yields precisely the object passed in. -/
theorem c2_heap_alloc_first_fit (obj : HeapObject) (ctx : InterpreterContext) :
    (∀ j, ctx.heap[j]? = some none → (∀ k, k < j → ctx.heap[k]? ≠ some none) →
      (obj.heap_alloc ctx).1 = ObjectPointer.Heap j ∧
      (obj.heap_alloc ctx).2.heap = ctx.heap.set j (some obj)) ∧
    ((∀ s ∈ ctx.heap, s.isSome) →
      (obj.heap_alloc ctx).1 = ObjectPointer.Heap ctx.heap.length ∧
      (obj.heap_alloc ctx).2.heap = ctx.heap ++ [some obj, none]) ∧
    (∃ i, (obj.heap_alloc ctx).1 = ObjectPointer.Heap i ∧
      (obj.heap_alloc ctx).2.deref_pointer (ObjectPointer.Heap i) = .ok obj) := by
  refine ⟨?_, ?_, ?_⟩
  · intro j hj hmin
    have h : firstEmptyIdx ctx.heap = some j := firstEmptyIdx_eq_some_iff.mpr ⟨hj, hmin⟩
    rw [heap_alloc_of_empty_slot obj h]
    exact ⟨rfl, rfl⟩
  · intro hfull
    have h : firstEmptyIdx ctx.heap = none := firstEmptyIdx_eq_none_iff.mpr hfull
    rw [heap_alloc_of_full obj h]
    exact ⟨rfl, rfl⟩
  · cases hF : firstEmptyIdx ctx.heap with
    | some j =>
      refine ⟨j, ?_⟩
      rw [heap_alloc_of_empty_slot obj hF]
      refine ⟨rfl, ?_⟩
      have hj : j < ctx.heap.length := firstEmptyIdx_lt_length hF
      simp only [InterpreterContext.deref_pointer, StackObject.deref, derefWithFuel]
      rw [List.getElem?_set_self (by simpa using hj)]
      rfl
    | none =>
      refine ⟨ctx.heap.length, ?_⟩
      rw [heap_alloc_of_full obj hF]
      refine ⟨rfl, ?_⟩
      simp only [InterpreterContext.deref_pointer, StackObject.deref, derefWithFuel]
      rw [List.getElem?_append_right (le_refl _), Nat.sub_self]
      rfl

/-- C2, witness: the amended behaviour at two concrete heaps — a table
whose slot 0 is empty receives the object there without growing; the
full one-slot table grows to three slots with the object at index 1. -/
theorem c2_witness :
    (((HeapObject.String "x").heap_alloc
        ⟨[none, some (HeapObject.String "a")], [], [], [], ⟨[], [], []⟩⟩).1 =
          ObjectPointer.Heap 0 ∧
      ((HeapObject.String "x").heap_alloc
        ⟨[none, some (HeapObject.String "a")], [], [], [], ⟨[], [], []⟩⟩).2.heap =
          [some (HeapObject.String "x"), some (HeapObject.String "a")]) ∧
    (((HeapObject.String "x").heap_alloc
        ⟨[some (HeapObject.String "a")], [], [], [], ⟨[], [], []⟩⟩).1 =
          ObjectPointer.Heap 1 ∧
      ((HeapObject.String "x").heap_alloc
        ⟨[some (HeapObject.String "a")], [], [], [], ⟨[], [], []⟩⟩).2.heap =
          [some (HeapObject.String "a"), some (HeapObject.String "x"), none]) := by
  constructor
  · exact (c2_heap_alloc_first_fit (HeapObject.String "x")
      ⟨[none, some (HeapObject.String "a")], [], [], [], ⟨[], [], []⟩⟩).1 0 rfl
      (fun k hk => absurd hk (Nat.not_lt_zero k))
  · exact (c2_heap_alloc_first_fit (HeapObject.String "x")
      ⟨[some (HeapObject.String "a")], [], [], [], ⟨[], [], []⟩⟩).2.1
      (by intro s hs; simp at hs; simp [hs])

/-- C9: stack allocation of `ObjectPointer::Null` fails with
`CannotAllocateNull`, heap allocation of `UnallocatedObject::Null` fails
with `CannotAllocateNull`, and hence so does its stack allocation
(which heap-allocates every non-scalar variant first); in each case the
error carries the context back unchanged — nothing is stored in any
heap slot or stack location. -/
theorem c9_null_allocation_fails (ctx : InterpreterContext) :
    ObjectPointer.Null.stack_alloc ctx =
      .err ctx ⟨.CannotAllocateNull, none⟩ ∧
    UnallocatedObject.Null.heap_alloc ctx =
      .err ctx ⟨.CannotAllocateNull, none⟩ ∧
    UnallocatedObject.Null.stack_alloc ctx =
      .err ctx ⟨.CannotAllocateNull, none⟩ :=
  ⟨rfl, rfl, rfl⟩

/-- C10: heap allocation never modifies an already-occupied slot — every
slot holding an object before an allocation holds the same object
afterwards, so previously returned heap pointers remain stable. -/
theorem c10_heap_alloc_preserves_occupied (obj : HeapObject) (ctx : InterpreterContext)
    (i : Nat) (o : HeapObject) (h : ctx.heap[i]? = some (some o)) :
    ((obj.heap_alloc ctx).2.heap)[i]? = some (some o) := by
  cases hF : firstEmptyIdx ctx.heap with
  | some j =>
    rw [heap_alloc_of_empty_slot obj hF]
    have hj : ctx.heap[j]? = some none := (firstEmptyIdx_eq_some_iff.mp hF).1
    have hne : j ≠ i := by
      intro rfljik
      rw [rfljik, h] at hj
      exact Option.noConfusion (Option.some.inj hj)
    rw [List.getElem?_set_ne hne]
    exact h
  | none =>
    rw [heap_alloc_of_full obj hF]
    have hi : i < ctx.heap.length := by
      by_contra hlen
      rw [List.getElem?_eq_none (Nat.le_of_not_lt hlen)] at h
      exact Option.noConfusion h
    rw [List.getElem?_append, if_pos hi]
    exact h

/-- C10, witness: allocating into the full one-slot table leaves the
occupied slot 0 unchanged. -/
theorem c10_witness :
    (((HeapObject.String "x").heap_alloc
        ⟨[some (HeapObject.String "a")], [], [], [], ⟨[], [], []⟩⟩).2.heap)[0]? =
      some (some (HeapObject.String "a")) :=
  c10_heap_alloc_preserves_occupied (HeapObject.String "x")
    ⟨[some (HeapObject.String "a")], [], [], [], ⟨[], [], []⟩⟩ 0
    (HeapObject.String "a") rfl

/-- C1: the claim requires every type-mismatched arithmetic fold to
surface as the typed error `FailedOperation` without crashing the
process.  Evaluating `add` on the evaluated operands of `(add 1 #t)` —
a numeric accumulator meeting a boolean operand — shows the fold
instead hits its `panic!()` and aborts the process; only the
zero-operand half of the claim holds (an empty fold is the typed error
`FailedOperation`). -/
theorem c1_mixed_operand_panics :
    add ⟨[], [StackObject.Value (Literal.Boolean true),
              StackObject.Value (Literal.Numeric (Numeric.Int 1))], [], [],
          ⟨[], [], []⟩⟩ 2 = .panicked ∧
    add ⟨[], [], [], [], ⟨[], [], []⟩⟩ 0 =
      .err ⟨[], [], [], [], ⟨[], [], []⟩⟩ ⟨.FailedOperation, none⟩ :=
  ⟨rfl, rfl⟩

/-- C3: the claim requires every `if` invocation with `n ≠ 3` argument
sub-trees, including `n = 0`, to fail with the typed error
`ExpectedNParams{3, n}`.  For `n = 0` the error-span computation
unwraps `ast.last()` on an empty list, so the process aborts before the
typed error is built; for the other mismatched arities (here `n = 1`)
the typed error is produced as claimed. -/
theorem c3_if_zero_args_panics :
    if_macro (fun c _ => .ok c ()) ⟨[], [], [], [], ⟨[], [], []⟩⟩ [] = .panicked ∧
    if_macro (fun c _ => .ok c ()) ⟨[], [], [], [], ⟨[], [], []⟩⟩
        [AST.EmptyList ⟨0, 0, 0⟩] =
      .err ⟨[], [], [], [], ⟨[], [], []⟩⟩
        ⟨.ExpectedNParams 3 1, some ⟨0, 0, 0⟩⟩ :=
  ⟨rfl, rfl⟩

/-- C7: with any arity other than 1, `car` and `cdr` fail with
`ExpectedNParams{1, n}`; with arity 1, `car` on an inline scalar
operand pushes that operand back unchanged (the context is exactly as
before), `car` on a `Null` pointer fails with `NullDeref`, and `cdr` on
an inline scalar fails with `ExpectedList`. -/
theorem c7_car_cdr_scalars (ctx : InterpreterContext) :
    (∀ n, n ≠ 1 →
      car ctx n = .err ctx ⟨.ExpectedNParams 1 n, none⟩ ∧
      cdr ctx n = .err ctx ⟨.ExpectedNParams 1 n, none⟩) ∧
    (∀ v rest, ctx.data_stack = StackObject.Value v :: rest →
      car ctx 1 = .ok ctx () ∧
      cdr ctx 1 = .err { ctx with data_stack := rest } ⟨.ExpectedList, none⟩) ∧
    (∀ rest, ctx.data_stack = StackObject.Ref ObjectPointer.Null :: rest →
      car ctx 1 = .err { ctx with data_stack := rest } ⟨.NullDeref, none⟩) := by
  refine ⟨?_, ?_, ?_⟩
  · intro n hn
    constructor
    · unfold car
      rw [if_pos hn]
    · unfold cdr
      rw [if_pos hn]
  · intro v rest hds
    have hPop : ctx.pop_data = .ok { ctx with data_stack := rest } (StackObject.Value v) := by
      unfold InterpreterContext.pop_data
      rw [hds]
    constructor
    · unfold car
      rw [if_neg (by simp), hPop]
      show ExecResult.ok { ctx with data_stack := StackObject.Value v :: rest } () = _
      rw [← hds]
    · unfold cdr
      rw [if_neg (by simp), hPop]
  · intro rest hds
    have hPop : ctx.pop_data =
        .ok { ctx with data_stack := rest } (StackObject.Ref ObjectPointer.Null) := by
      unfold InterpreterContext.pop_data
      rw [hds]
    unfold car
    rw [if_neg (by simp), hPop]

/-- C7, witness: the four behaviours at concrete inputs — arity 2 is
rejected by both natives, `car` returns the scalar `7` unchanged, `car`
rejects a `Null` pointer, `cdr` rejects the scalar. -/
theorem c7_witness :
    (car ⟨[], [StackObject.Value (Literal.Numeric (Numeric.Int 7))], [], [], ⟨[], [], []⟩⟩ 2 =
      .err ⟨[], [StackObject.Value (Literal.Numeric (Numeric.Int 7))], [], [], ⟨[], [], []⟩⟩
        ⟨.ExpectedNParams 1 2, none⟩) ∧
    (car ⟨[], [StackObject.Value (Literal.Numeric (Numeric.Int 7))], [], [], ⟨[], [], []⟩⟩ 1 =
      .ok ⟨[], [StackObject.Value (Literal.Numeric (Numeric.Int 7))], [], [], ⟨[], [], []⟩⟩ ()) ∧
    (cdr ⟨[], [StackObject.Value (Literal.Numeric (Numeric.Int 7))], [], [], ⟨[], [], []⟩⟩ 1 =
      .err ⟨[], [], [], [], ⟨[], [], []⟩⟩ ⟨.ExpectedList, none⟩) ∧
    (car ⟨[], [StackObject.Ref ObjectPointer.Null], [], [], ⟨[], [], []⟩⟩ 1 =
      .err ⟨[], [], [], [], ⟨[], [], []⟩⟩ ⟨.NullDeref, none⟩) :=
  ⟨((c7_car_cdr_scalars _).1 2 (by decide)).1,
   ((c7_car_cdr_scalars _).2.1 (Literal.Numeric (Numeric.Int 7)) [] rfl).1,
   ((c7_car_cdr_scalars _).2.1 (Literal.Numeric (Numeric.Int 7)) [] rfl).2,
   (c7_car_cdr_scalars _).2.2 [] rfl⟩

theorem popN_cons (heap : List (Option HeapObject)) (x : StackObject)
    (xs : List StackObject) (fs : List StackFrame)
    (im : List (String × ObjectPointer)) (ew : ErrorWriter) (n : Nat) :
    popN ⟨heap, x :: xs, fs, im, ew⟩ (n + 1) =
      match popN ⟨heap, xs, fs, im, ew⟩ n with
      | .ok ctx₂ l => .ok ctx₂ (x :: l)
      | .err c e => .err c e
      | .panicked => .panicked := rfl

theorem popN_append (objs : List StackObject) :
    ∀ (rest : List StackObject) (ctx : InterpreterContext),
    ctx.data_stack = objs ++ rest →
    popN ctx objs.length = .ok { ctx with data_stack := rest } objs := by
  induction objs with
  | nil =>
    intro rest ctx h
    cases ctx
    simp_all [popN]
  | cons x xs ih =>
    intro rest ctx h
    rw [List.cons_append] at h
    cases ctx with
    | mk heap ds fs im ew =>
      simp only at h
      subst h
      show popN _ (xs.length + 1) = _
      rw [popN_cons, ih rest ⟨heap, xs ++ rest, fs, im, ew⟩ rfl]

theorem popN_reversed (objs rest : List StackObject) (ctx : InterpreterContext)
    (h : ctx.data_stack = objs.reverse ++ rest) :
    popN ctx objs.length = .ok { ctx with data_stack := rest } objs.reverse := by
  have := popN_append objs.reverse rest ctx h
  rwa [List.length_reverse] at this

theorem bin_op_eq_core (op : Numeric → Numeric → Numeric) (ctx : InterpreterContext)
    (n : Nat) (ctx₁ : InterpreterContext) (objs : List StackObject)
    (h : popN ctx n = .ok ctx₁ objs) :
    bin_op op ctx n = bin_op_core op ctx₁ objs := by
  unfold bin_op
  rw [h]

theorem cmp_op_eq_core (rel : ObjectRef → ObjectRef → Bool) (ctx : InterpreterContext)
    (n : Nat) (ctx₁ : InterpreterContext) (objs : List StackObject)
    (h : popN ctx n = .ok ctx₁ objs) :
    cmp_op rel ctx n = cmp_op_core rel ctx₁ objs := by
  unfold cmp_op
  rw [h]

theorem binFold_cons_value (op : Numeric → Numeric → Numeric) (ctx : InterpreterContext)
    {o : StackObject} {l : Literal} (os : List StackObject)
    (h : o.deref ctx = .ok (HeapObject.Value l)) :
    binFold op ctx (o :: os) none =
      binFold op ctx os (some (UnallocatedObject.Value l)) := by
  simp only [binFold, binStep]
  rw [h]
  rfl

theorem binFold_numeric (op : Numeric → Numeric → Numeric) (ctx : InterpreterContext)
    {os : List StackObject} {ws : List Numeric}
    (h : List.Forall₂
      (fun oi wi => oi.deref ctx = .ok (HeapObject.Value (Literal.Numeric wi))) os ws) :
    ∀ a : Numeric,
    binFold op ctx os (some (UnallocatedObject.Value (Literal.Numeric a))) =
      some (some (UnallocatedObject.Value (Literal.Numeric (ws.foldl op a)))) := by
  induction h with
  | nil => intro a; rfl
  | cons hrel htl ih =>
    intro a
    unfold binFold binStep
    rw [hrel]
    exact ih (op a _)

/-- C5: for `N ≥ 1` operands on the data stack that all dereference to
numeric literals, the `bin_op!` body (each arithmetic native) pops the
`N` operands, restores their evaluation order, and pushes the
left-to-right pairwise fold of the binary numeric operator, the
accumulator starting as the first operand's own value; the rest of the
context is untouched. -/
theorem c5_arith_left_fold (op : Numeric → Numeric → Numeric)
    (ctx : InterpreterContext) (o : StackObject) (os : List StackObject)
    (v : Numeric) (ws : List Numeric) (rest : List StackObject)
    (hStack : ctx.data_stack = (o :: os).reverse ++ rest)
    (hHead : o.deref { ctx with data_stack := rest } =
      .ok (HeapObject.Value (Literal.Numeric v)))
    (hTail : List.Forall₂
      (fun oi wi => oi.deref { ctx with data_stack := rest } =
        .ok (HeapObject.Value (Literal.Numeric wi))) os ws) :
    bin_op op ctx (o :: os).length =
      .ok { ctx with data_stack :=
              StackObject.Value (Literal.Numeric (ws.foldl op v)) :: rest } () := by
  rw [bin_op_eq_core op ctx _ _ _ (popN_reversed (o :: os) rest ctx hStack)]
  unfold bin_op_core
  rw [List.reverse_reverse, binFold_cons_value op _ os hHead,
    binFold_numeric op _ hTail v]
  rfl

/-- C5, witness: `(add 1 2)` — two inline numeric operands fold to the
inline numeric `3`. -/
theorem c5_witness :
    bin_op Numeric.add
      ⟨[], [StackObject.Value (Literal.Numeric (Numeric.Int 2)),
            StackObject.Value (Literal.Numeric (Numeric.Int 1))], [], [],
        ⟨[], [], []⟩⟩ 2 =
      .ok ⟨[], [StackObject.Value (Literal.Numeric (Numeric.Int 3))], [], [],
        ⟨[], [], []⟩⟩ () :=
  c5_arith_left_fold Numeric.add _
    (StackObject.Value (Literal.Numeric (Numeric.Int 1)))
    [StackObject.Value (Literal.Numeric (Numeric.Int 2))]
    (Numeric.Int 1) [Numeric.Int 2] [] rfl rfl
    (List.Forall₂.cons rfl List.Forall₂.nil)

theorem cmpFold_cons_false (rel : ObjectRef → ObjectRef → Bool) (ctx : InterpreterContext)
    (a b : StackObject) (rest : List (StackObject × StackObject)) :
    cmpFold rel ctx ((a, b) :: rest) (.ok false) = cmpFold rel ctx rest (.ok false) := by
  simp only [cmpFold]

theorem cmpFold_cons_true (rel : ObjectRef → ObjectRef → Bool) (ctx : InterpreterContext)
    {a b : StackObject} {va vb : ObjectRef}
    (rest : List (StackObject × StackObject))
    (ha : a.deref ctx = .ok va) (hb : b.deref ctx = .ok vb) :
    cmpFold rel ctx ((a, b) :: rest) (.ok true) = cmpFold rel ctx rest (.ok (rel va vb)) := by
  simp only [cmpFold]
  rw [ha, hb]

theorem cmpFold_adjacent (rel : ObjectRef → ObjectRef → Bool) (ctx : InterpreterContext) :
    ∀ {objs : List StackObject} {vals : List ObjectRef},
    List.Forall₂ (fun oi vi => oi.deref ctx = .ok vi) objs vals →
    ∀ b : Bool,
    cmpFold rel ctx (adjacentPairs objs) (.ok b) = .ok (b && chainHolds rel vals) := by
  intro objs
  induction objs with
  | nil =>
    intro vals h b
    cases h
    simp [cmpFold, adjacentPairs, chainHolds]
  | cons o₁ t ih =>
    intro vals h b
    cases h with
    | cons h₁ htl =>
      cases t with
      | nil =>
        cases htl
        simp [cmpFold, adjacentPairs, chainHolds]
      | cons o₂ t₂ =>
        cases htl with
        | cons h₂ htl₂ =>
          show cmpFold rel ctx ((o₁, o₂) :: adjacentPairs (o₂ :: t₂)) (.ok b) = _
          cases b with
          | false =>
            rw [cmpFold_cons_false, ih (List.Forall₂.cons h₂ htl₂) false]
            simp
          | true =>
            rw [cmpFold_cons_true rel ctx _ h₁ h₂,
              show (rel _ _ : Bool) = (true && rel _ _) from (Bool.true_and _).symm]
            rw [ih (List.Forall₂.cons h₂ htl₂) (true && rel _ _)]
            simp [chainHolds, Bool.and_assoc]

/-- C6: for every `N` operands that all dereference, the `cmp_op!` body
(each comparison native) pops the `N` operands, restores their
evaluation order, and pushes `true` exactly when the relation holds for
every adjacent pair of the restored sequence (the specification's
chained-comparison semantics `chainHolds`, vacuously true for zero or
one operand); the rest of the context is untouched. -/
theorem c6_cmp_chained (rel : ObjectRef → ObjectRef → Bool) (ctx : InterpreterContext)
    (objs : List StackObject) (vals : List ObjectRef) (rest : List StackObject)
    (hStack : ctx.data_stack = objs.reverse ++ rest)
    (hDeref : List.Forall₂
      (fun oi vi => oi.deref { ctx with data_stack := rest } = .ok vi) objs vals) :
    cmp_op rel ctx objs.length =
      .ok { ctx with data_stack :=
              StackObject.Value (Literal.Boolean (chainHolds rel vals)) :: rest } () := by
  rw [cmp_op_eq_core rel ctx _ _ _ (popN_reversed objs rest ctx hStack)]
  unfold cmp_op_core
  rw [List.reverse_reverse, cmpFold_adjacent rel _ hDeref true, Bool.true_and]
  rfl

/-- C6, witness: `(lt 1 2 3)` — the chain `1 < 2 < 3` of three operands
holds, and zero operands are vacuously true (`(eq)` pushes `true`). -/
theorem c6_witness :
    cmp_op ObjectRef.ltv
      ⟨[], [StackObject.Value (Literal.Numeric (Numeric.Int 3)),
            StackObject.Value (Literal.Numeric (Numeric.Int 2)),
            StackObject.Value (Literal.Numeric (Numeric.Int 1))], [], [],
        ⟨[], [], []⟩⟩ 3 =
      .ok ⟨[], [StackObject.Value (Literal.Boolean true)], [], [],
        ⟨[], [], []⟩⟩ () ∧
    cmp_op ObjectRef.eqv ⟨[], [], [], [], ⟨[], [], []⟩⟩ 0 =
      .ok ⟨[], [StackObject.Value (Literal.Boolean true)], [], [],
        ⟨[], [], []⟩⟩ () :=
  ⟨c6_cmp_chained ObjectRef.ltv _
      [StackObject.Value (Literal.Numeric (Numeric.Int 1)),
       StackObject.Value (Literal.Numeric (Numeric.Int 2)),
       StackObject.Value (Literal.Numeric (Numeric.Int 3))]
      [HeapObject.Value (Literal.Numeric (Numeric.Int 1)),
       HeapObject.Value (Literal.Numeric (Numeric.Int 2)),
       HeapObject.Value (Literal.Numeric (Numeric.Int 3))] [] rfl
      (List.Forall₂.cons rfl (List.Forall₂.cons rfl (List.Forall₂.cons rfl List.Forall₂.nil))),
   c6_cmp_chained ObjectRef.eqv _ [] [] [] rfl List.Forall₂.nil⟩

/-- C4: for an `if` invocation with exactly 3 argument sub-trees, the
condition is evaluated (pushed, then popped) and dereferenced, and the
macro hands back the else-branch sub-tree exactly when the condition
dereferences to the literal boolean `false`, the then-branch sub-tree
for every other value.  The evaluator `interp` is universally
quantified and constrained only on the condition, so neither branch
sub-tree is ever evaluated by the macro itself. -/
theorem c4_if_selects_branch
    (interp : InterpreterContext → AST → ExecResult Unit)
    (ctx ctx₁ : InterpreterContext) (cond thenB elseB : AST)
    (so : StackObject) (rest : List StackObject) (v : ObjectRef)
    (hEval : interp ctx cond = .ok ctx₁ ())
    (hStack : ctx₁.data_stack = so :: rest)
    (hDeref : so.deref { ctx₁ with data_stack := rest } = .ok v) :
    if_macro interp ctx [cond, thenB, elseB] =
      .ok { ctx₁ with data_stack := rest }
        (match v with
         | HeapObject.Value (Literal.Boolean false) => elseB
         | _ => thenB) := by
  have hPop : ctx₁.pop_data = .ok { ctx₁ with data_stack := rest } so := by
    cases ctx₁ with
    | mk heap ds fs im ew =>
      simp only at hStack
      subst hStack
      rfl
  simp only [ if_macro, hEval, hPop, hDeref]
  cases v with
  | Value l =>
    cases l with
    | Numeric n => rfl
    | Boolean b => cases b <;> rfl
  | Func f => rfl
  | String s => rfl
  | List hd tl => rfl

/-- C4, witness: a condition that evaluates to the literal boolean
`false` selects the third sub-tree; the popped condition leaves the
data stack as it was. -/
theorem c4_witness :
    if_macro
      (fun c _ => .ok (c.push_data (StackObject.Value (Literal.Boolean false))) ())
      ⟨[], [], [], [], ⟨[], [], []⟩⟩
      [AST.EmptyList ⟨0, 0, 0⟩, AST.EmptyList ⟨0, 1, 1⟩, AST.EmptyList ⟨0, 2, 2⟩] =
      .ok ⟨[], [], [], [], ⟨[], [], []⟩⟩ (AST.EmptyList ⟨0, 2, 2⟩) :=
  c4_if_selects_branch _ _ _ _ _ _
    (StackObject.Value (Literal.Boolean false)) []
    (HeapObject.Value (Literal.Boolean false)) rfl rfl rfl

/-- C8: an import whose resolved module file path was already loaded in
this run returns success with the context completely unchanged — and
since the file-system read, the front end and the evaluator are
universally quantified here, the no-op neither reads the file, nor
re-registers it with the diagnostic registry, nor re-interprets any of
its forms. -/
theorem c8_import_reload_is_noop
    (fsRead : ModulePath → Option String)
    (lexparse : Nat → String → Option (List AST))
    (interp : InterpreterContext → AST → ExecResult Unit)
    (cwd : ModulePath) (ctx : InterpreterContext)
    (first : AST) (restAst : List AST) (segs : List String)
    (hSegs : segmentNames (first :: restAst) = .ok segs)
    (hLoaded : ctx.error_writer.already_loaded
      (resolvedImportPath cwd ctx.error_writer first.span.file_id segs) = true) :
    importModule fsRead lexparse interp cwd ctx (first :: restAst) = .ok ctx () := by
  simp only [importModule, totalSpanOf, List.map_cons, hSegs, hLoaded]
  rfl

/-- C8, witness: re-importing the registered module `m` (resolved to the
already-loaded path `m.scm`) is a successful no-op even against a file
system and front end that would fail any real load. -/
theorem c8_witness :
    importModule (fun _ => none) (fun _ _ => none) (fun c _ => .ok c ()) []
      ⟨[], [], [], [], ⟨[(["m.scm"], 0)], [], []⟩⟩ [AST.Identifier "m" ⟨0, 0, 0⟩] =
      .ok ⟨[], [], [], [], ⟨[(["m.scm"], 0)], [], []⟩⟩ () :=
  c8_import_reload_is_noop _ _ _ _ _ _ [] ["m"] rfl (by decide)

end Scheme
